import Mathlib

/-!
Verification of the dependency-mapping engine of
`skills/01_code_understanding/map_dependencies/main.py`.

The Python source is shallowly embedded as executable Lean definitions.
Pure functions are translated directly; file-system access (existence of
the scan root, directory traversal, file reading) and the CPython `ast`
module are external collaborators of the engine and are abstracted into
explicit inputs.  Python `dict`s preserve insertion order and are modelled
as association lists in insertion order; Python `set`s have an unspecified
iteration order and are modelled as duplicate-free lists in first-insertion
order (one admissible order).  Machine integers are modelled as `Nat`
(all counts in the source are non-negative and small).

String primitives are implemented over `String.data` (the underlying
character list) so that every definition reduces inside the kernel.
-/

/-- Boolean membership of a string in a list (Python `x in l`). -/
def memB (x : String) (l : List String) : Bool :=
  l.any (fun y => x == y)

/-- Python `s.startswith(p)`. -/
def strStartsWith (s p : String) : Bool :=
  p.data.isPrefixOf s.data

/-- Python `c in s` for a single-character `c` (substring containment of one char). -/
def strContainsChar (s : String) (c : Char) : Bool :=
  s.data.contains c

/-- Python `s.split(sep)[0]`: the prefix of `s` before the first occurrence of
the (single-character) separator; the whole string when the separator is absent. -/
def headTok (s : String) (sep : Char) : String :=
  String.mk (s.data.takeWhile (fun c => !(c == sep)))

/-- The fixed Python standard-library name set (`PYTHON_STDLIB`, main.py lines 322-328). -/
def PYTHON_STDLIB : List String :=
  ["os", "sys", "re", "json", "time", "datetime", "pathlib", "collections",
   "itertools", "functools", "typing", "abc", "ast", "io", "math", "random",
   "subprocess", "threading", "multiprocessing", "logging", "unittest",
   "argparse", "configparser", "dataclasses", "enum", "copy", "hashlib",
   "base64", "urllib", "http", "socket", "email", "html", "xml", "sqlite3"]

/-- The fixed Node built-in module set (`JAVASCRIPT_BUILTIN`, main.py lines 330-334). -/
def JAVASCRIPT_BUILTIN : List String :=
  ["fs", "path", "http", "https", "crypto", "os", "child_process", "events",
   "stream", "util", "url", "querystring", "assert", "buffer", "cluster",
   "dns", "net", "process", "readline", "tls", "vm", "zlib"]

/-- Embedding of `is_external_dependency(module, language, source_file="")`
(main.py lines 337-365).  Returns `true` when the module is classified
external, `false` when internal.  `source_file` is accepted and unused,
exactly as in the source. -/
def is_external_dependency (module language source_file : String) : Bool :=
  if strStartsWith module "." then false
  else if language == "python" then
    let root_module := headTok module '.'
    !(memB root_module PYTHON_STDLIB)
  else if language == "javascript" || language == "typescript" then
    if strStartsWith module "." || strStartsWith module "/" then false
    else if memB module JAVASCRIPT_BUILTIN || strStartsWith module "node:" then true
    else true
  else if language == "java" then
    !(strStartsWith module "java." || strStartsWith module "javax.")
  else if language == "go" then
    strContainsChar module '.' || strContainsChar module '/'
  else true

/-!
Cycle detection (`find_circular_dependencies`, main.py lines 393-423).

The Python function closes over three mutable variables (`cycles`, `visited`,
`rec_stack`) and recurses; the state is made explicit here.  The extra `err`
flag models the `ValueError` that `path.index(node)` would raise if the node
were not in `path` — claim C10 is that this never happens.  Python's
recursion is modelled with a fuel parameter; the recursion depth of the
source is bounded by the number of distinct nodes (each recursive level
pushes a fresh node on `rec_stack`), so the fuel chosen in
`findCircularState` is always sufficient, and the invariants below are
proved for *every* fuel value.
-/

structure DfsState where
  cycles : List (List String)
  visited : List String
  recStack : List String
  err : Bool
deriving DecidableEq

/-- Python `edges.get(node, set())` on the adjacency map. -/
def adjGet (adj : List (String × List String)) (node : String) : List String :=
  match adj.find? (fun p => p.1 == node) with
  | some p => p.2
  | none => []

/-- Python `path.index(node)`, totalised: `none` models the `ValueError`. -/
def idxOf? (l : List String) (x : String) : Option Nat :=
  match l with
  | [] => none
  | y :: ys => if y == x then some 0 else (idxOf? ys x).map (· + 1)

/-- Python `cycle in cycles` (structural list equality). -/
def cycMemB (c : List String) (cs : List (List String)) : Bool :=
  cs.any (fun d => c == d)

mutual
/-- The inner `dfs(node, path)` of `find_circular_dependencies`
(main.py lines 399-417). -/
def dfs (adj : List (String × List String)) :
    Nat → String → List String → DfsState → DfsState
  | 0, _, _, s => s
  | fuel+1, node, path, s =>
    if memB node s.recStack then
      match idxOf? path node with
      | some i =>
        let cycle := path.drop i ++ [node]
        if 1 < cycle.length ∧ cycMemB cycle s.cycles = false then
          { s with cycles := s.cycles ++ [cycle] }
        else s
      | none => { s with err := true }
    else if memB node s.visited then s
    else
      let s1 := { s with visited := s.visited ++ [node],
                         recStack := s.recStack ++ [node] }
      let s2 := dfsList adj fuel (adjGet adj node) (path ++ [node]) s1
      { s2 with recStack := s2.recStack.dropLast }

/-- The `for neighbor in edges.get(node, set()): dfs(neighbor, path + [node])`
loop (main.py lines 414-415); the neighbour set is modelled as a list in one
admissible iteration order. -/
def dfsList (adj : List (String × List String)) :
    Nat → List String → List String → DfsState → DfsState
  | _, [], _, s => s
  | fuel, n :: ns, path, s => dfsList adj fuel ns path (dfs adj fuel n path s)
end

/-- Fuel that strictly dominates the recursion depth of the source: the depth
is at most the number of distinct nodes plus one, which is at most the number
of keys plus the total number of neighbour entries. -/
def totalFuel (adj : List (String × List String)) : Nat :=
  adj.length + (adj.map (fun p => p.2.length)).sum + 2

/-- The driver loop `for node in edges: if node not in visited: dfs(node, [])`
(main.py lines 419-421), returning the final state. -/
def findCircularState (adj : List (String × List String)) : DfsState :=
  (adj.map Prod.fst).foldl
    (fun s k => if memB k s.visited then s else dfs adj (totalFuel adj) k [] s)
    ⟨[], [], [], false⟩

/-- Embedding of `find_circular_dependencies(edges)` (main.py lines 393-423):
the recorded cycles, capped at 10 (`cycles[:10]`). -/
def find_circular_dependencies (adj : List (String × List String)) : List (List String) :=
  (findCircularState adj).cycles.take 10

/-- The invariant behind C5: every recorded cycle is nonempty and starts and
ends with the same node id. -/
def GoodCycles (s : DfsState) : Prop :=
  ∀ c ∈ s.cycles, c ≠ [] ∧ c.head? = c.getLast?

/-!
The dependency-mapping pipeline (`map_dependencies`, main.py lines 426-545).

The request is abstracted into a `ScanInput`: `path_exists` stands for
`Path(source_path).exists()` and `files` for the result of
`get_source_files` combined with per-file language resolution (line 455),
the import extraction (line 456) and relative-path computation (line 457) —
all of which read the file system and are external inputs to the pure
accumulation modelled here.
-/

/-- One extracted import: the `(module, type, symbols)` tuples produced by the
per-language import extractors. -/
structure ImportRecord where
  module : String
  import_type : String
  symbols : List String
deriving DecidableEq

/-- One discovered source file, after language resolution, import extraction
and relative-path computation (main.py lines 454-457). -/
structure FileRecord where
  relative_path : String
  lang : String
  imports : List ImportRecord
deriving DecidableEq

/-- The scan request, with the file-system interaction abstracted into
`path_exists` and `files`.  `depth` and `output_format` are accepted by the
source but never used by `map_dependencies` and are omitted. -/
structure ScanInput where
  source_path : String
  include_external : Bool
  path_exists : Bool
  files : List FileRecord
deriving DecidableEq

/-- Mirror of the `InternalDependency` pydantic model (main.py lines 54-60). -/
structure InternalDependency where
  source : String
  target : String
  import_type : String
  symbols : List String
deriving DecidableEq

/-- Mirror of the `ExternalDependency` pydantic model (main.py lines 63-68). -/
structure ExternalDependency where
  name : String
  used_in : List String
  import_count : Nat
deriving DecidableEq

/-- Mirror of the `GraphNode` pydantic model (main.py lines 71-76). -/
structure GraphNode where
  id : String
  type : String
  path : String
deriving DecidableEq

/-- Mirror of the `GraphEdge` pydantic model (main.py lines 79-84). -/
structure GraphEdge where
  source : String
  target : String
  weight : Nat
deriving DecidableEq

/-- Mirror of the `DependencyGraph` pydantic model (main.py lines 87-91). -/
structure DependencyGraph where
  nodes : List GraphNode
  edges : List GraphEdge
deriving DecidableEq

/-- Mirror of the `HighlyDepended` pydantic model (main.py lines 94-98). -/
structure HighlyDepended where
  path : String
  dependents_count : Nat
deriving DecidableEq

/-- Mirror of the `MapOutputs` pydantic model (main.py lines 101-111). -/
structure MapOutputs where
  summary : String
  total_dependencies : Nat
  internal_dependencies : List InternalDependency
  external_dependencies : List ExternalDependency
  dependency_graph : DependencyGraph
  circular_dependencies : List (List String)
  entry_points : List String
  highly_depended : List HighlyDepended
deriving DecidableEq

/-- Python `set.add` on a set modelled as a duplicate-free list in
first-insertion order. -/
def addNode (l : List String) (x : String) : List String :=
  if memB x l then l else l ++ [x]

/-- Python `edges[relative_path].add(module)` on the `defaultdict(set)`
(main.py line 480): creates the key on first access. -/
def addEdge (adj : List (String × List String)) (src tgt : String) :
    List (String × List String) :=
  match adj with
  | [] => [(src, [tgt])]
  | (k, vs) :: rest =>
    if k == src then (k, addNode vs tgt) :: rest
    else (k, vs) :: addEdge rest src tgt

/-- Python `external_deps_map[root]["used_in"].append(rel)` and
`["count"] += 1` on the `defaultdict` (main.py lines 470-471). -/
def bumpExternal (m : List (String × List String × Nat)) (root rel : String) :
    List (String × List String × Nat) :=
  match m with
  | [] => [(root, [rel], 1)]
  | (k, used, c) :: rest =>
    if k == root then (k, used ++ [rel], c + 1) :: rest
    else (k, used, c) :: bumpExternal rest root rel

/-- The accumulators of the per-file loop (main.py lines 448-452). -/
structure ScanState where
  internal_deps : List InternalDependency
  external_map : List (String × List String × Nat)
  edges : List (String × List String)
  all_nodes : List String
  external_nodes : List String
deriving DecidableEq

/-- Body of the `for module, import_type, symbols in imports:` loop
(main.py lines 461-481).  The source passes the absolute file path as the
unused `source_file` argument of the classifier; the model passes `""`. -/
def processImport (include_external : Bool) (rel lang : String)
    (st : ScanState) (imp : ImportRecord) : ScanState :=
  if imp.module == "" then st
  else if is_external_dependency imp.module lang "" then
    if include_external then
      let root := headTok (headTok imp.module '/') '.'
      { st with external_map := bumpExternal st.external_map root rel,
                external_nodes := addNode st.external_nodes root }
    else st
  else
    { st with
        internal_deps := st.internal_deps ++
          [⟨rel, imp.module, imp.import_type, imp.symbols⟩],
        edges := addEdge st.edges rel imp.module,
        all_nodes := addNode st.all_nodes imp.module }

/-- Body of the `for file_path in source_files:` loop (main.py lines 454-481). -/
def processFile (include_external : Bool) (st : ScanState) (file : FileRecord) :
    ScanState :=
  file.imports.foldl (processImport include_external file.relative_path file.lang)
    { st with all_nodes := addNode st.all_nodes file.relative_path }

/-- The accumulation phase of `map_dependencies` over all discovered files. -/
def scanCore (inp : ScanInput) : ScanState :=
  inp.files.foldl (processFile inp.include_external) ⟨[], [], [], [], []⟩

/-- Stable descending insertion by a numeric key: the behaviour of Python's
stable `sorted(..., key=..., reverse=True)` (ties keep first-seen order). -/
def insertByKeyDesc {α : Type} (key : α → Nat) (x : α) :
    List α → List α
  | [] => [x]
  | y :: ys => if key y < key x then x :: y :: ys else y :: insertByKeyDesc key x ys

def sortByKeyDesc {α : Type} (key : α → Nat) (l : List α) : List α :=
  l.foldl (fun acc x => insertByKeyDesc key x acc) []

/-- Python `list(set(xs))` modelled in first-occurrence order. -/
def dedupNodes (xs : List String) : List String :=
  xs.foldl addNode []

/-- The external-dependency report list (main.py lines 484-491): sorted
by import count descending, `used_in` deduplicated and capped at 10. -/
def buildExternalDeps (m : List (String × List String × Nat)) :
    List ExternalDependency :=
  (sortByKeyDesc (fun p => p.2.2) m).map
    (fun p => ⟨p.1, (dedupNodes p.2.1).take 10, p.2.2⟩)

/-- The full (pre-truncation) graph node list (main.py lines 494-498). -/
def graphNodesFull (st : ScanState) : List GraphNode :=
  st.all_nodes.map (fun n => ⟨n, "internal", n⟩) ++
  st.external_nodes.map (fun n => ⟨n, "external", n⟩)

/-- The full (pre-truncation) graph edge list (main.py lines 500-503). -/
def graphEdgesFull (adj : List (String × List String)) : List GraphEdge :=
  adj.foldl (fun acc p => acc ++ p.2.map (fun t => ⟨p.1, t, 1⟩)) []

/-- The union of all edge-target sets (main.py lines 509-511). -/
def targetsOf (adj : List (String × List String)) : List String :=
  adj.foldl (fun acc p => p.2.foldl addNode acc) []

/-- The full (pre-truncation) entry-point list (main.py line 512):
`[n for n in all_nodes if n not in targets and n in edges]`. -/
def entryPointsFull (st : ScanState) : List String :=
  st.all_nodes.filter
    (fun n => !(memB n (targetsOf st.edges)) && st.edges.any (fun p => p.1 == n))

/-- The highly-depended report (main.py lines 515-522): dependent counts per
target, sorted descending, capped at 10. -/
def highlyDependedFull (adj : List (String × List String)) : List HighlyDepended :=
  (sortByKeyDesc (fun h => h.dependents_count)
    ((targetsOf adj).map
      (fun t => ⟨t, (adj.filter (fun p => memB t p.2)).length⟩))).take 10

/-- Python `" ".join(parts)`. -/
def joinSpace : List String → String
  | [] => ""
  | [x] => x
  | x :: xs => x ++ " " ++ joinSpace xs

/-- The natural-language summary (main.py lines 526-534). -/
def buildSummary (fileCount internalCount externalCount : Nat)
    (circular : List (List String)) (highly : List HighlyDepended) : String :=
  let parts :=
    ["Analyzed " ++ toString fileCount ++ " file(s).",
     "Found " ++ toString internalCount ++ " internal and " ++
       toString externalCount ++ " external dependencies."]
  let parts := parts ++
    (if circular.length ≠ 0 then
      ["Detected " ++ toString circular.length ++ " circular dependency chain(s)."]
     else [])
  let parts := parts ++
    (match highly with
     | [] => []
     | top :: _ =>
       ["Most depended: " ++ top.path ++ " (" ++
          toString top.dependents_count ++ " dependents)."])
  joinSpace parts

/-- A `MapOutputs` with empty lists, as produced by the two degenerate early
returns (main.py lines 433-436 and 442-445; the pydantic defaults fill the
omitted fields with empty lists). -/
def degenerateOutputs (summary : String) : MapOutputs :=
  ⟨summary, 0, [], [], ⟨[], []⟩, [], [], []⟩

/-- Embedding of `map_dependencies(inputs)` (main.py lines 426-545). -/
def map_dependencies (inp : ScanInput) : MapOutputs :=
  if inp.path_exists = false then
    degenerateOutputs ("Path not found: " ++ inp.source_path)
  else if inp.files.length == 0 then
    degenerateOutputs ("No source files found in: " ++ inp.source_path)
  else
    let st := scanCore inp
    let external_deps := buildExternalDeps st.external_map
    let circular := find_circular_dependencies st.edges
    let highly := highlyDependedFull st.edges
    let total := st.internal_deps.length + external_deps.length
    { summary := buildSummary inp.files.length st.internal_deps.length
        external_deps.length circular highly,
      total_dependencies := total,
      internal_dependencies := st.internal_deps.take 100,
      external_dependencies := external_deps.take 50,
      dependency_graph := ⟨(graphNodesFull st).take 200,
                           (graphEdgesFull st.edges).take 500⟩,
      circular_dependencies := circular,
      entry_points := (entryPointsFull st).take 20,
      highly_depended := highly }

/-!
Python import extraction (`parse_python_imports`, main.py lines 191-200, and
its regex fallback `parse_python_imports_regex`, lines 203-222).

`ast.parse` plus the `PythonImportVisitor` walk is CPython standard-library
functionality (an external collaborator), modelled as an abstract function
`astParse : String → Option (List ImportRecord)`; `none` models `ast.parse`
raising `SyntaxError`, the only exception the source catches.

The fallback's two regular expressions are modelled by direct scanners over
the character list.  `^` is the `re.MULTILINE` anchor (position 0 or just
after a newline); `finditer` semantics (leftmost, non-overlapping, continue
at match end) are modelled by consuming the matched span.  Note that the
capture classes `[\w\.,\s]+` and `[\w\*,\s]+` contain `\s` and therefore
match across newlines, exactly as in CPython; `\w` and `\s` are modelled
at ASCII level.  In the corner case where the capture class can only match
whitespace, CPython backtracks `\s+` and captures a single whitespace
character, yielding only empty stripped tokens; the scanners return the
records for that case directly.
-/

/-- ASCII model of the regex class `\w`. -/
def isWordChar (c : Char) : Bool :=
  c.isAlphanum || c == '_'

/-- ASCII model of the regex class `\s`. -/
def isSpaceChar (c : Char) : Bool :=
  c == ' ' || c == '\t' || c == '\n' || c == '\r' || c == '\x0b' || c == '\x0c'

/-- The capture class `[\w\.,\s]` of the `import` pattern (main.py line 208). -/
def isImportClassChar (c : Char) : Bool :=
  isWordChar c || c == '.' || c == ',' || isSpaceChar c

/-- The capture class `[\w\*,\s]` of the `from` pattern (main.py line 216). -/
def isFromSymChar (c : Char) : Bool :=
  isWordChar c || c == '*' || c == ',' || isSpaceChar c

/-- The module class `[\w\.]` of the `from` pattern. -/
def isModChar (c : Char) : Bool :=
  isWordChar c || c == '.'

/-- Python `str.strip()`. -/
def trimChars (l : List Char) : List Char :=
  ((l.dropWhile isSpaceChar).reverse.dropWhile isSpaceChar).reverse

/-- Python `str.split(",")`. -/
def splitComma : List Char → List (List Char)
  | [] => [[]]
  | c :: cs =>
    let r := splitComma cs
    if c == ',' then [] :: r
    else
      match r with
      | [] => [[c]]
      | g :: gs => (c :: g) :: gs

/-- One attempted match of `^import\s+([\w\.,\s]+)` at the current position
(main.py lines 208-213), returning the records and the matched length. -/
def tryImportMatch (cs : List Char) : Option (List ImportRecord × Nat) :=
  if ("import".data).isPrefixOf cs then
    let rest := cs.drop 6
    match rest.head? with
    | none => none
    | some c =>
      if isSpaceChar c then
        let ws := rest.takeWhile isSpaceChar
        let cap := (rest.drop ws.length).takeWhile isImportClassChar
        if cap.length ≠ 0 then
          let modules := (splitComma cap).map trimChars
          some (modules.filterMap (fun m =>
              if m.isEmpty then none
              else some ⟨headTok (String.mk m) '.', "direct", [String.mk m]⟩),
            6 + ws.length + cap.length)
        else if 2 ≤ ws.length then some ([], 6 + ws.length)
        else none
      else none
  else none

/-- One attempted match of `^from\s+([\w\.]+)\s+import\s+([\w\*,\s]+)` at the
current position (main.py lines 216-220), returning the record and the
matched length. -/
def tryFromMatch (cs : List Char) : Option (ImportRecord × Nat) :=
  if ("from".data).isPrefixOf cs then
    let rest := cs.drop 4
    let ws1 := rest.takeWhile isSpaceChar
    if ws1.length == 0 then none
    else
      let afterWs1 := rest.drop ws1.length
      let m := afterWs1.takeWhile isModChar
      if m.length == 0 then none
      else
        let afterM := afterWs1.drop m.length
        let ws2 := afterM.takeWhile isSpaceChar
        if ws2.length == 0 then none
        else
          let afterWs2 := afterM.drop ws2.length
          if ("import".data).isPrefixOf afterWs2 then
            let rest2 := afterWs2.drop 6
            let ws3 := rest2.takeWhile isSpaceChar
            if ws3.length == 0 then none
            else
              let cap := (rest2.drop ws3.length).takeWhile isFromSymChar
              if cap.length ≠ 0 then
                some (⟨String.mk m, "from",
                    ((splitComma cap).map trimChars).map String.mk⟩,
                  4 + ws1.length + m.length + ws2.length + 6 + ws3.length + cap.length)
              else if 2 ≤ ws3.length then
                some (⟨String.mk m, "from", [""]⟩,
                  4 + ws1.length + m.length + ws2.length + 6 + ws3.length)
              else none
          else none
  else none

/-- The `re.finditer` loop for the `import` pattern (main.py lines 209-213);
fuel bounds the scan length (each step consumes at least one character, so
`length + 1` suffices). -/
def scanImportPattern : Nat → List Char → Bool → List ImportRecord
  | 0, _, _ => []
  | _+1, [], _ => []
  | fuel+1, c :: cs, atStart =>
    if atStart then
      match tryImportMatch (c :: cs) with
      | some (recs, k) =>
        recs ++ scanImportPattern fuel ((c :: cs).drop k)
          (((c :: cs).take k).getLast? == some '\n')
      | none => scanImportPattern fuel cs (c == '\n')
    else scanImportPattern fuel cs (c == '\n')

/-- The `re.finditer` loop for the `from` pattern (main.py lines 217-220). -/
def scanFromPattern : Nat → List Char → Bool → List ImportRecord
  | 0, _, _ => []
  | _+1, [], _ => []
  | fuel+1, c :: cs, atStart =>
    if atStart then
      match tryFromMatch (c :: cs) with
      | some (rec, k) =>
        rec :: scanFromPattern fuel ((c :: cs).drop k)
          (((c :: cs).take k).getLast? == some '\n')
      | none => scanFromPattern fuel cs (c == '\n')
    else scanFromPattern fuel cs (c == '\n')

/-- Embedding of `parse_python_imports_regex(code)` (main.py lines 203-222):
all matches of the `import` pattern, then all matches of the `from` pattern. -/
def parse_python_imports_regex (code : String) : List ImportRecord :=
  scanImportPattern (code.data.length + 1) code.data true ++
  scanFromPattern (code.data.length + 1) code.data true

/-- Embedding of `parse_python_imports(code)` (main.py lines 191-200):
the structured strategy when `ast.parse` succeeds, otherwise the regex
fallback.  `astParse` abstracts `ast.parse` composed with
`PythonImportVisitor`; `none` models a `SyntaxError`. -/
def parse_python_imports (astParse : String → Option (List ImportRecord))
    (code : String) : List ImportRecord :=
  match astParse code with
  | some imps => imps
  | none => parse_python_imports_regex code

/-- A minimal scan: one JavaScript file with one relative import. -/
def smallInput : ScanInput :=
  ⟨"proj", true, true, [⟨"a.js", "javascript", [⟨"./b", "default", ["b"]⟩]⟩]⟩

/-- Scenario A of the spec: two files that import each other through
relative targets (as extracted by the JavaScript import parser:
`import b from "./b"` yields module `"./b"`). -/
def c3Input : ScanInput :=
  ⟨"proj", true, true,
   [⟨"a.js", "javascript", [⟨"./b", "default", ["b"]⟩]⟩,
    ⟨"b.js", "javascript", [⟨"./a", "default", ["a"]⟩]⟩]⟩

/-- A single Python file with 101 relative imports: more internal
dependencies than the output cap of 100. -/
def c2Input : ScanInput :=
  ⟨"proj", true, true, [⟨"a.py", "python", List.replicate 101 ⟨".m", "from", ["x"]⟩⟩]⟩

/-- 101 files, each with one unique relative import: 202 internal graph
nodes, more than the node cap of 200, while all 101 edges stay under the
edge cap of 500. -/
def c7Input : ScanInput :=
  ⟨"proj", true, true,
   (List.range 101).map (fun i =>
     ⟨"f" ++ toString i, "javascript", [⟨"./" ++ toString i, "default", []⟩]⟩)⟩

/-- The well-formedness invariant of the edge accumulator: every entry has a
nonempty neighbour set and both its key and all its targets were recorded in
`all_nodes` (main.py lines 459, 480-481). -/
def EdgesWF (st : ScanState) : Prop :=
  ∀ p ∈ st.edges, p.2 ≠ [] ∧ p.1 ∈ st.all_nodes ∧ ∀ t ∈ p.2, t ∈ st.all_nodes

theorem memB_iff (x : String) (l : List String) : memB x l = true ↔ x ∈ l := by
  simp [memB]

/-- C1 as stated is false: the non-relative Python target `"os"` has root token
`"os"` in the standard-library set, and the classifier returns internal
(`false`), not external. -/
theorem c1_counterexample :
    ¬ (∀ m : String, strStartsWith m "." = false →
        is_external_dependency m "python" "" = true) := by
  intro h
  have h2 := h "os" (by decide)
  simp [is_external_dependency, strStartsWith, headTok, memB, PYTHON_STDLIB] at h2

/-- C1 amended: a Python import target that does not begin with `.` is
classified external exactly when its root token (the part before the first
`.`) is not in the fixed standard-library set; a stdlib-rooted target is
classified internal. -/
theorem c1_ok (m : String) (h : strStartsWith m "." = false) :
    is_external_dependency m "python" "" = !(memB (headTok m '.') PYTHON_STDLIB) := by
  simp [is_external_dependency, h]

/-- Witness for `c1_ok` at the concrete inputs `"os"` (stdlib-rooted,
classified internal) and `"requests"` (classified external). -/
theorem c1_witness :
    strStartsWith "os" "." = false ∧
    strStartsWith "requests" "." = false ∧
    is_external_dependency "os" "python" "" = !(memB (headTok "os" '.') PYTHON_STDLIB) ∧
    is_external_dependency "requests" "python" ""
      = !(memB (headTok "requests" '.') PYTHON_STDLIB) :=
  ⟨by decide, by decide, c1_ok "os" (by decide), c1_ok "requests" (by decide)⟩

/-- C4 as stated is false: the Go target `"fmt"` contains no `/` and no `.`,
and the classifier returns internal (`false`), not external. -/
theorem c4_counterexample :
    ¬ (∀ m : String, strContainsChar m '/' = false → strContainsChar m '.' = false →
        is_external_dependency m "go" "" = true) := by
  intro h
  have h2 := h "fmt" (by decide) (by decide)
  simp [is_external_dependency, strStartsWith, strContainsChar, memB] at h2

/-- C4 amended: a Go import target that contains no path separator and no dot
(and hence is not a relative target) is classified internal (`false`); Go
targets containing a dot or a slash are the ones classified external. -/
theorem c4_ok (m : String) (hrel : strStartsWith m "." = false)
    (hs : strContainsChar m '/' = false) (hd : strContainsChar m '.' = false) :
    is_external_dependency m "go" "" = false := by
  simp [is_external_dependency, hrel, hs, hd]

/-- Witness for `c4_ok` at the concrete Go standard-library-style target `"fmt"`. -/
theorem c4_witness :
    strStartsWith "fmt" "." = false ∧ strContainsChar "fmt" '/' = false ∧
    strContainsChar "fmt" '.' = false ∧ is_external_dependency "fmt" "go" "" = false :=
  ⟨by decide, by decide, by decide, c4_ok "fmt" (by decide) (by decide) (by decide)⟩

theorem idxOf?_drop {l : List String} {x : String} {i : Nat}
    (h : idxOf? l x = some i) : ∃ ys, l.drop i = x :: ys := by
  induction l generalizing i with
  | nil => simp [idxOf?] at h
  | cons y ys ih =>
    rw [idxOf?] at h
    split at h
    case isTrue hy =>
      have hi : i = 0 := by cases h; rfl
      subst hi
      exact ⟨ys, by simp [beq_iff_eq.mp hy]⟩
    case isFalse hy =>
      rcases Option.map_eq_some'.mp h with ⟨j, hj, hji⟩
      subst hji
      simpa using ih hj

theorem idxOf?_mem {l : List String} {x : String} (h : x ∈ l) :
    ∃ i, idxOf? l x = some i := by
  induction l with
  | nil => cases h
  | cons y ys ih =>
    by_cases hy : (y == x) = true
    · exact ⟨0, by rw [idxOf?]; simp [hy]⟩
    · have hx : x ∈ ys := by
        rcases List.mem_cons.mp h with h1 | h1
        · exact absurd (beq_iff_eq.mpr h1.symm) hy
        · exact h1
      rcases ih hx with ⟨j, hj⟩
      exact ⟨j + 1, by rw [idxOf?]; simp [hy, hj]⟩

theorem dfsList_cycles_good (adj : List (String × List String)) (fuel : Nat)
    (hdfs : ∀ node path s, GoodCycles s → GoodCycles (dfs adj fuel node path s)) :
    ∀ ns path s, GoodCycles s → GoodCycles (dfsList adj fuel ns path s) := by
  intro ns
  induction ns with
  | nil => intro path s hs; simpa only [dfsList] using hs
  | cons n ns ih =>
    intro path s hs
    rw [dfsList]
    exact ih _ _ (hdfs _ _ _ hs)

theorem dfs_cycles_good (adj : List (String × List String)) :
    ∀ fuel node path s, GoodCycles s → GoodCycles (dfs adj fuel node path s) := by
  intro fuel
  induction fuel with
  | zero => intro node path s hs; simpa only [dfs] using hs
  | succ fuel ih =>
    intro node path s hs
    rw [dfs]
    split
    case isTrue hmem =>
      split
      case h_1 i heq =>
        dsimp only
        split
        case isTrue hc =>
          intro c hc2
          rcases List.mem_append.mp hc2 with h1 | h1
          · exact hs c h1
          · have hcx : c = List.drop i path ++ [node] := by simpa using h1
            subst hcx
            rcases idxOf?_drop heq with ⟨ys, hys⟩
            rw [hys]
            refine ⟨by simp, ?_⟩
            rw [List.getLast?_concat]
            simp
        case isFalse hc => exact hs
      case h_2 heq =>
        intro c hc; exact hs c (by simpa using hc)
    case isFalse hmem =>
      split
      case isTrue hvis => exact hs
      case isFalse hvis =>
        intro c hc
        have h1 : GoodCycles (dfsList adj fuel (adjGet adj node) (path ++ [node])
            { s with visited := s.visited ++ [node], recStack := s.recStack ++ [node] }) := by
          apply dfsList_cycles_good adj fuel ih
          intro c' hc'; exact hs c' (by simpa using hc')
        exact h1 c (by simpa using hc)

theorem findCircularState_cycles_good (adj : List (String × List String)) :
    GoodCycles (findCircularState adj) := by
  rw [findCircularState]
  have base : GoodCycles (⟨[], [], [], false⟩ : DfsState) := by
    intro c hc; simp at hc
  generalize (⟨[], [], [], false⟩ : DfsState) = s0 at base
  induction (adj.map Prod.fst) generalizing s0 with
  | nil => simpa using base
  | cons k ks ih =>
    rw [List.foldl_cons]
    apply ih
    split
    · exact base
    · exact dfs_cycles_good adj _ _ _ _ base

/-- C5: for every adjacency map, the returned circular-dependency list has at
most 10 entries, and every returned cycle is nonempty with its first node id
equal to its last node id. -/
theorem c5_ok (adj : List (String × List String)) :
    (find_circular_dependencies adj).length ≤ 10 ∧
    ∀ c ∈ find_circular_dependencies adj, c ≠ [] ∧ c.head? = c.getLast? := by
  constructor
  · calc (find_circular_dependencies adj).length
        = ((findCircularState adj).cycles.take 10).length := rfl
      _ ≤ 10 := by
          rw [List.length_take]
          exact min_le_left _ _
  · intro c hc
    exact findCircularState_cycles_good adj c
      (List.take_subset _ _ hc)

/-- Witness for `c5_ok`: on the self-loop map `a → a` the engine returns
the single cycle `["a", "a"]`, which indeed starts and ends with `"a"`. -/
theorem c5_witness :
    ["a", "a"] ∈ find_circular_dependencies [("a", ["a"])] ∧
    (["a", "a"] : List String) ≠ [] ∧
    (["a", "a"] : List String).head? = (["a", "a"] : List String).getLast? :=
  ⟨by simp [find_circular_dependencies, findCircularState, totalFuel, dfs, dfsList,
      adjGet, memB, idxOf?, cycMemB],
   (c5_ok [("a", ["a"])]).2 ["a", "a"]
     (by simp [find_circular_dependencies, findCircularState, totalFuel, dfs, dfsList,
        adjGet, memB, idxOf?, cycMemB])⟩

/-- The invariant behind C10: at every point the explicit recursion stack
equals the `path` argument of the pending call and no position lookup has
failed. -/
theorem dfsList_stack (adj : List (String × List String)) (fuel : Nat)
    (hdfs : ∀ node path s, s.recStack = path → s.err = false →
      (dfs adj fuel node path s).recStack = path ∧ (dfs adj fuel node path s).err = false) :
    ∀ ns path s, s.recStack = path → s.err = false →
      (dfsList adj fuel ns path s).recStack = path ∧
      (dfsList adj fuel ns path s).err = false := by
  intro ns
  induction ns with
  | nil => intro path s hr he; rw [dfsList]; exact ⟨hr, he⟩
  | cons n ns ih =>
    intro path s hr he
    rw [dfsList]
    rcases hdfs n path s hr he with ⟨hr2, he2⟩
    exact ih path _ hr2 he2

theorem dfs_stack (adj : List (String × List String)) :
    ∀ fuel node path s, s.recStack = path → s.err = false →
      (dfs adj fuel node path s).recStack = path ∧
      (dfs adj fuel node path s).err = false := by
  intro fuel
  induction fuel with
  | zero => intro node path s hr he; rw [dfs]; exact ⟨hr, he⟩
  | succ fuel ih =>
    intro node path s hr he
    rw [dfs]
    split
    case isTrue hmem =>
      have hnode : node ∈ path := by
        rw [← hr]; exact (memB_iff node s.recStack).mp hmem
      rcases idxOf?_mem hnode with ⟨i, hi⟩
      rw [hi]
      dsimp only
      split
      case isTrue hc => exact ⟨hr, he⟩
      case isFalse hc => exact ⟨hr, he⟩
    case isFalse hmem =>
      split
      case isTrue hvis => exact ⟨hr, he⟩
      case isFalse hvis =>
        have h2 := dfsList_stack adj fuel ih (adjGet adj node) (path ++ [node])
          { s with visited := s.visited ++ [node], recStack := s.recStack ++ [node] }
          (by simp [hr]) (by simpa using he)
        refine ⟨?_, h2.2⟩
        simp only [h2.1]
        exact List.dropLast_concat

/-- C10: on every adjacency map the driver finishes with an empty recursion
stack and with the error flag still clear — whenever a node on the recursion
stack is re-reached, it is also in the current `path`, so `path.index(node)`
always succeeds and `find_circular_dependencies` never raises. -/
theorem c10_ok (adj : List (String × List String)) :
    (findCircularState adj).err = false ∧ (findCircularState adj).recStack = [] := by
  rw [findCircularState]
  have base : (⟨[], [], [], false⟩ : DfsState).recStack = [] ∧
      (⟨[], [], [], false⟩ : DfsState).err = false := ⟨rfl, rfl⟩
  generalize (⟨[], [], [], false⟩ : DfsState) = s0 at base
  induction (adj.map Prod.fst) generalizing s0 with
  | nil => exact ⟨by simpa using base.2, by simpa using base.1⟩
  | cons k ks ih =>
    rw [List.foldl_cons]
    apply ih
    split
    · exact base
    · rcases dfs_stack adj (totalFuel adj) k [] s0 base.1 base.2 with ⟨h1, h2⟩
      exact ⟨h1, h2⟩

/-- C9: whenever the structured (AST) parse fails with a syntax error, the
extractor returns exactly the records of the regex pattern strategy on the
same text; the failure is absorbed, never propagated. -/
theorem c9_ok (astParse : String → Option (List ImportRecord))
    (code : String) (h : astParse code = none) :
    parse_python_imports astParse code = parse_python_imports_regex code := by
  rw [parse_python_imports, h]

/-- Witness for `c9_ok`: a parser that rejects the (syntactically
invalid) text `"def f(:\nimport json"`. -/
theorem c9_witness :
    (fun _ : String => (none : Option (List ImportRecord))) "def f(:\nimport json" = none ∧
    parse_python_imports (fun _ => none) "def f(:\nimport json" =
      parse_python_imports_regex "def f(:\nimport json" :=
  ⟨rfl, c9_ok (fun _ => none) "def f(:\nimport json" rfl⟩

/-- C8: a request whose source path does not exist yields a successful
degenerate report — the summary literally contains `"not found"`,
`total_dependencies` is zero and every list in the output is empty. -/
theorem c8_ok (inp : ScanInput) (h : inp.path_exists = false) :
    (∃ a b : String, (map_dependencies inp).summary = a ++ ("not found" ++ b)) ∧
    (map_dependencies inp).total_dependencies = 0 ∧
    (map_dependencies inp).internal_dependencies = [] ∧
    (map_dependencies inp).external_dependencies = [] ∧
    (map_dependencies inp).dependency_graph.nodes = [] ∧
    (map_dependencies inp).dependency_graph.edges = [] ∧
    (map_dependencies inp).circular_dependencies = [] ∧
    (map_dependencies inp).entry_points = [] ∧
    (map_dependencies inp).highly_depended = [] := by
  have hout : map_dependencies inp =
      degenerateOutputs ("Path not found: " ++ inp.source_path) := by
    rw [map_dependencies, h]
    rfl
  rw [hout]
  refine ⟨⟨"Path ", ": " ++ inp.source_path, ?_⟩, rfl, rfl, rfl, rfl, rfl, rfl, rfl, rfl⟩
  show "Path not found: " ++ inp.source_path = "Path " ++ ("not found" ++ (": " ++ inp.source_path))
  rw [← String.append_assoc, ← String.append_assoc]
  rfl

/-- Witness for `c8_ok` at a concrete nonexistent path. -/
theorem c8_witness :
    (⟨"/nope", true, false, []⟩ : ScanInput).path_exists = false ∧
    (map_dependencies ⟨"/nope", true, false, []⟩).total_dependencies = 0 ∧
    (map_dependencies ⟨"/nope", true, false, []⟩).internal_dependencies = [] ∧
    (∃ a b : String,
      (map_dependencies ⟨"/nope", true, false, []⟩).summary = a ++ ("not found" ++ b)) :=
  ⟨rfl, (c8_ok ⟨"/nope", true, false, []⟩ rfl).2.1,
   (c8_ok ⟨"/nope", true, false, []⟩ rfl).2.2.1,
   (c8_ok ⟨"/nope", true, false, []⟩ rfl).1⟩

/-- C3 fails on the code: on a two-file set whose files import each other
through relative targets, the engine reports *no* cycle (the extracted
relative targets `"./b"`/`"./a"` are never resolved to the file node ids
`"a.js"`/`"b.js"`, so the internal edges never close a cycle), and *both*
files are reported as entry points rather than none; the files do appear as
internal nodes. -/
theorem c3_code_behavior :
    (map_dependencies c3Input).circular_dependencies = [] ∧
    (map_dependencies c3Input).entry_points = ["a.js", "b.js"] ∧
    (⟨"a.js", "internal", "a.js"⟩ : GraphNode) ∈ (map_dependencies c3Input).dependency_graph.nodes ∧
    (⟨"b.js", "internal", "b.js"⟩ : GraphNode) ∈ (map_dependencies c3Input).dependency_graph.nodes := by
  refine ⟨?_, by decide, by decide, by decide⟩
  simp [map_dependencies, c3Input, scanCore, processFile, processImport,
    is_external_dependency, strStartsWith, memB, addNode, addEdge, headTok,
    find_circular_dependencies, findCircularState, totalFuel, dfs, dfsList,
    adjGet, idxOf?, cycMemB, degenerateOutputs]

set_option maxRecDepth 10000 in
/-- C2 as stated is false: with 101 internal dependencies the returned
`internal_dependencies` list is truncated to 100 entries while
`total_dependencies` still counts all 101. -/
theorem c2_counterexample :
    ¬ ((map_dependencies c2Input).total_dependencies =
       (map_dependencies c2Input).internal_dependencies.length +
       (map_dependencies c2Input).external_dependencies.length) := by
  decide

theorem processImport_external_map_false (rel lang : String) (st : ScanState)
    (imp : ImportRecord) :
    (processImport false rel lang st imp).external_map = st.external_map := by
  rw [processImport]
  split
  · rfl
  · split
    · rfl
    · rfl

theorem foldl_processImport_external_map_false (rel lang : String)
    (imps : List ImportRecord) :
    ∀ st : ScanState,
      (imps.foldl (processImport false rel lang) st).external_map = st.external_map := by
  induction imps with
  | nil => intro st; rfl
  | cons i is ih =>
    intro st
    rw [List.foldl_cons, ih, processImport_external_map_false]

theorem processFile_external_map_false (st : ScanState) (f : FileRecord) :
    (processFile false st f).external_map = st.external_map := by
  rw [processFile]
  exact foldl_processImport_external_map_false _ _ _ _

theorem foldl_processFile_external_map_false (files : List FileRecord) :
    ∀ st : ScanState,
      (files.foldl (processFile false) st).external_map = st.external_map := by
  induction files with
  | nil => intro st; rfl
  | cons f fs ih =>
    intro st
    rw [List.foldl_cons, ih, processFile_external_map_false]

/-- With `include_external=false` the external-dependency accumulator stays empty. -/
theorem scanCore_external_map_empty (inp : ScanInput)
    (h : inp.include_external = false) :
    (scanCore inp).external_map = [] := by
  rw [scanCore, h]
  exact foldl_processFile_external_map_false _ _

/-- C2 amended: the accounting identity holds on the *pre-truncation* lists;
equivalently, the claim as stated holds whenever at most 100 internal and at
most 50 external dependencies are found (so that the returned lists are not
truncated). -/
theorem c2_ok (inp : ScanInput)
    (h1 : (scanCore inp).internal_deps.length ≤ 100)
    (h2 : (buildExternalDeps (scanCore inp).external_map).length ≤ 50) :
    (inp.include_external = true →
       (map_dependencies inp).total_dependencies =
         (map_dependencies inp).internal_dependencies.length +
         (map_dependencies inp).external_dependencies.length) ∧
    (inp.include_external = false →
       (map_dependencies inp).total_dependencies =
         (map_dependencies inp).internal_dependencies.length) := by
  by_cases hp : inp.path_exists = false
  · constructor <;> intro hie <;> simp [map_dependencies, hp, degenerateOutputs]
  · rw [Bool.not_eq_false] at hp
    by_cases hf : inp.files.length = 0
    · constructor <;> intro hie <;>
        simp [map_dependencies, hp, hf, degenerateOutputs]
    · have hmain :
          (map_dependencies inp).total_dependencies =
            (scanCore inp).internal_deps.length +
            (buildExternalDeps (scanCore inp).external_map).length ∧
          (map_dependencies inp).internal_dependencies = (scanCore inp).internal_deps ∧
          (map_dependencies inp).external_dependencies =
            buildExternalDeps (scanCore inp).external_map := by
        rw [map_dependencies]
        simp only [hp]
        rw [if_neg (by simp)]
        rw [if_neg (by simp [hf])]
        exact ⟨rfl, List.take_of_length_le h1, List.take_of_length_le h2⟩
      constructor
      · intro _
        rw [hmain.1, hmain.2.1, hmain.2.2]
      · intro hie
        rw [hmain.1, hmain.2.1, scanCore_external_map_empty inp hie]
        rfl

/-- Witness for `c2_ok`: a scan with one internal dependency and
external dependencies enabled satisfies the accounting identity. -/
theorem c2_witness :
    (scanCore smallInput).internal_deps.length ≤ 100 ∧
    (buildExternalDeps (scanCore smallInput).external_map).length ≤ 50 ∧
    (map_dependencies smallInput).total_dependencies =
      (map_dependencies smallInput).internal_dependencies.length +
      (map_dependencies smallInput).external_dependencies.length :=
  ⟨by decide, by decide, (c2_ok smallInput (by decide) (by decide)).1 rfl⟩

theorem addNode_mem {x y : String} {l : List String} :
    x ∈ addNode l y ↔ x ∈ l ∨ x = y := by
  rw [addNode]
  split
  case isTrue h =>
    have hy : y ∈ l := (memB_iff y l).mp h
    constructor
    · exact Or.inl
    · rintro (h1 | rfl)
      · exact h1
      · exact hy
  case isFalse h => simp

theorem mem_addNode_self (l : List String) (x : String) : x ∈ addNode l x :=
  addNode_mem.mpr (Or.inr rfl)

theorem addNode_subset {l : List String} (x : String) : l ⊆ addNode l x :=
  fun _ hy => addNode_mem.mpr (Or.inl hy)

theorem addNode_ne_nil (l : List String) (x : String) : addNode l x ≠ [] := by
  rw [addNode]
  split
  case isTrue h =>
    intro hl
    subst hl
    simp [memB] at h
  case isFalse h => simp

theorem foldl_addNode_mem (x : String) (l : List String) :
    ∀ acc, x ∈ l.foldl addNode acc ↔ x ∈ acc ∨ x ∈ l := by
  induction l with
  | nil => intro acc; simp
  | cons y ys ih =>
    intro acc
    rw [List.foldl_cons, ih, addNode_mem]
    simp only [List.mem_cons]
    tauto

theorem targetsOf_aux (x : String) (adj : List (String × List String)) :
    ∀ acc, x ∈ adj.foldl (fun acc p => p.2.foldl addNode acc) acc ↔
      x ∈ acc ∨ ∃ p ∈ adj, x ∈ p.2 := by
  induction adj with
  | nil => intro acc; simp
  | cons p ps ih =>
    intro acc
    rw [List.foldl_cons, ih, foldl_addNode_mem]
    simp only [List.mem_cons]
    constructor
    · rintro ((h | h) | ⟨q, hq, hx⟩)
      · exact Or.inl h
      · exact Or.inr ⟨p, Or.inl rfl, h⟩
      · exact Or.inr ⟨q, Or.inr hq, hx⟩
    · rintro (h | ⟨q, (rfl | hq), hx⟩)
      · exact Or.inl (Or.inl h)
      · exact Or.inl (Or.inr hx)
      · exact Or.inr ⟨q, hq, hx⟩

theorem targetsOf_mem (x : String) (adj : List (String × List String)) :
    x ∈ targetsOf adj ↔ ∃ p ∈ adj, x ∈ p.2 := by
  rw [targetsOf, targetsOf_aux]
  simp

theorem anyKey_iff (adj : List (String × List String)) (n : String) :
    (adj.any (fun p => p.1 == n)) = true ↔ ∃ p ∈ adj, p.1 = n := by
  simp [List.any_eq_true]

theorem addEdge_cases {adj : List (String × List String)} {src tgt : String} :
    ∀ p ∈ addEdge adj src tgt,
      p ∈ adj ∨ (∃ q ∈ adj, p.1 = q.1 ∧ p.2 = addNode q.2 tgt) ∨ p = (src, [tgt]) := by
  induction adj with
  | nil =>
    intro p hp
    rw [addEdge] at hp
    simp at hp
    exact Or.inr (Or.inr hp)
  | cons kv rest ih =>
    intro p hp
    rw [addEdge] at hp
    split at hp
    case isTrue h =>
      rcases List.mem_cons.mp hp with h1 | h1
      · exact Or.inr (Or.inl ⟨kv, List.mem_cons_self _ _, by rw [h1], by rw [h1]⟩)
      · exact Or.inl (List.mem_cons_of_mem _ h1)
    case isFalse h =>
      rcases List.mem_cons.mp hp with h1 | h1
      · exact Or.inl (h1 ▸ List.mem_cons_self _ _)
      · rcases ih p h1 with h2 | ⟨q, hq, h3, h4⟩ | h2
        · exact Or.inl (List.mem_cons_of_mem _ h2)
        · exact Or.inr (Or.inl ⟨q, List.mem_cons_of_mem _ hq, h3, h4⟩)
        · exact Or.inr (Or.inr h2)

theorem processImport_all_nodes_sub (ie : Bool) (rel lang : String)
    (st : ScanState) (imp : ImportRecord) :
    st.all_nodes ⊆ (processImport ie rel lang st imp).all_nodes := by
  rw [processImport]
  split
  · exact fun _ h => h
  · split
    · split
      · exact fun _ h => h
      · exact fun _ h => h
    · exact addNode_subset _

theorem processImport_edgesWF (ie : Bool) (rel lang : String)
    (st : ScanState) (imp : ImportRecord)
    (hrel : rel ∈ st.all_nodes) (h : EdgesWF st) :
    EdgesWF (processImport ie rel lang st imp) := by
  rw [processImport]
  split
  · exact h
  · split
    · split
      · exact h
      · exact h
    · intro p hp
      rcases addEdge_cases p hp with h1 | ⟨q, hq, h2, h3⟩ | h1
      · obtain ⟨hne, hk, hts⟩ := h p h1
        exact ⟨hne, addNode_subset _ hk, fun t ht => addNode_subset _ (hts t ht)⟩
      · obtain ⟨hne, hk, hts⟩ := h q hq
        refine ⟨by rw [h3]; exact addNode_ne_nil _ _, by rw [h2]; exact addNode_subset _ hk, ?_⟩
        intro t ht
        rw [h3] at ht
        rcases addNode_mem.mp ht with ht2 | rfl
        · exact addNode_subset _ (hts t ht2)
        · exact mem_addNode_self _ _
      · rw [h1]
        refine ⟨by simp, addNode_subset _ hrel, ?_⟩
        intro t ht
        rcases List.mem_singleton.mp ht with rfl
        exact mem_addNode_self _ _

theorem foldl_processImport_edgesWF (ie : Bool) (rel lang : String)
    (imps : List ImportRecord) :
    ∀ st : ScanState, rel ∈ st.all_nodes → EdgesWF st →
      EdgesWF (imps.foldl (processImport ie rel lang) st) := by
  induction imps with
  | nil => intro st _ h; exact h
  | cons i is ih =>
    intro st hrel h
    rw [List.foldl_cons]
    exact ih _ (processImport_all_nodes_sub ie rel lang st i hrel)
      (processImport_edgesWF ie rel lang st i hrel h)

theorem processFile_edgesWF (ie : Bool) (st : ScanState) (f : FileRecord)
    (h : EdgesWF st) : EdgesWF (processFile ie st f) := by
  rw [processFile]
  apply foldl_processImport_edgesWF
  · exact mem_addNode_self _ _
  · intro p hp
    obtain ⟨hne, hk, hts⟩ := h p hp
    exact ⟨hne, addNode_subset _ hk, fun t ht => addNode_subset _ (hts t ht)⟩

theorem scanCore_edgesWF (inp : ScanInput) : EdgesWF (scanCore inp) := by
  rw [scanCore]
  have base : EdgesWF (⟨[], [], [], [], []⟩ : ScanState) := by
    intro p hp
    simp at hp
  generalize (⟨[], [], [], [], []⟩ : ScanState) = s0 at base
  induction inp.files generalizing s0 with
  | nil => exact base
  | cons f fs ih =>
    rw [List.foldl_cons]
    exact ih _ (processFile_edgesWF _ s0 f base)

/-- C6: every reported entry point is an internal node of the scan, has at
least one outgoing internal edge (its adjacency entry is nonempty), is the
target of no internal edge, and at most 20 entry points are returned. -/
theorem c6_ok (inp : ScanInput) :
    (map_dependencies inp).entry_points.length ≤ 20 ∧
    ∀ n ∈ (map_dependencies inp).entry_points,
      n ∈ (scanCore inp).all_nodes ∧
      (⟨n, "internal", n⟩ : GraphNode) ∈ graphNodesFull (scanCore inp) ∧
      (∃ p ∈ (scanCore inp).edges, p.1 = n ∧ p.2 ≠ []) ∧
      (∀ p ∈ (scanCore inp).edges, n ∉ p.2) := by
  by_cases hp : inp.path_exists = false
  · have hep : (map_dependencies inp).entry_points = [] := by
      simp [map_dependencies, hp, degenerateOutputs]
    rw [hep]
    exact ⟨by simp, by simp⟩
  · rw [Bool.not_eq_false] at hp
    by_cases hf : inp.files.length = 0
    · have hep : (map_dependencies inp).entry_points = [] := by
        rw [map_dependencies]
        simp only [hp]
        rw [if_neg (by simp), if_pos (by simp [hf])]
        rfl
      rw [hep]
      exact ⟨by simp, by simp⟩
    · have hep : (map_dependencies inp).entry_points =
          (entryPointsFull (scanCore inp)).take 20 := by
        rw [map_dependencies]
        simp only [hp]
        rw [if_neg (by simp), if_neg (by simp [hf])]
      rw [hep]
      constructor
      · rw [List.length_take]
        exact min_le_left _ _
      · intro n hn
        have hn2 : n ∈ entryPointsFull (scanCore inp) := List.take_subset _ _ hn
        rw [entryPointsFull, List.mem_filter] at hn2
        obtain ⟨hmem, hcond⟩ := hn2
        rw [Bool.and_eq_true] at hcond
        obtain ⟨hnt, hkey⟩ := hcond
        obtain ⟨p, hp2, hpn⟩ := (anyKey_iff _ n).mp hkey
        have hWF := scanCore_edgesWF inp
        refine ⟨hmem, List.mem_append_left _ (List.mem_map.mpr ⟨n, hmem, rfl⟩),
          ⟨p, hp2, hpn, (hWF p hp2).1⟩, ?_⟩
        intro q hq hnq
        have hmem2 : n ∈ targetsOf (scanCore inp).edges :=
          (targetsOf_mem n _).mpr ⟨q, hq, hnq⟩
        rw [← memB_iff] at hmem2
        rw [Bool.not_eq_true'] at hnt
        rw [hnt] at hmem2
        cases hmem2

/-- Witness for `c6_ok`: in the minimal scan the file `"a.js"` is the
single reported entry point and satisfies every stated property. -/
theorem c6_witness :
    "a.js" ∈ (map_dependencies smallInput).entry_points ∧
    "a.js" ∈ (scanCore smallInput).all_nodes ∧
    (⟨"a.js", "internal", "a.js"⟩ : GraphNode) ∈ graphNodesFull (scanCore smallInput) ∧
    (∃ p ∈ (scanCore smallInput).edges, p.1 = "a.js" ∧ p.2 ≠ []) ∧
    (∀ p ∈ (scanCore smallInput).edges, "a.js" ∉ p.2) := by
  have h := (c6_ok smallInput).2 "a.js" (by decide)
  exact ⟨by decide, h.1, h.2.1, h.2.2.1, h.2.2.2⟩

set_option maxRecDepth 40000 in
/-- C7 as stated is false: with 202 internal nodes the returned node list is
truncated to 200 entries while all 101 edges are kept, so the kept edge
`f100 → ./100` has neither endpoint in the returned node list.  (The missing
endpoints do not depend on the modelled set-iteration order: 101 kept edges
mention 202 distinct endpoints, and any 200-element node list must omit two
of them.) -/
theorem c7_counterexample :
    ¬ (∀ e ∈ (map_dependencies c7Input).dependency_graph.edges,
        (∃ nd ∈ (map_dependencies c7Input).dependency_graph.nodes, nd.id = e.source) ∧
        (∃ nd ∈ (map_dependencies c7Input).dependency_graph.nodes, nd.id = e.target)) := by
  intro h
  have h1 := (h ⟨"f100", "./100", 1⟩ (by decide)).1
  have h2 : ∀ nd ∈ (map_dependencies c7Input).dependency_graph.nodes,
      nd.id ≠ "f100" := by decide
  obtain ⟨nd, hnd, hid⟩ := h1
  exact h2 nd hnd hid

theorem graphEdgesFull_aux (e : GraphEdge) (adj : List (String × List String)) :
    ∀ acc, e ∈ adj.foldl (fun acc p => acc ++ p.2.map (fun t => ⟨p.1, t, 1⟩)) acc ↔
      e ∈ acc ∨ ∃ p ∈ adj, ∃ t ∈ p.2, e = ⟨p.1, t, 1⟩ := by
  induction adj with
  | nil => intro acc; simp
  | cons p ps ih =>
    intro acc
    rw [List.foldl_cons, ih]
    simp only [List.mem_append, List.mem_map, List.mem_cons]
    constructor
    · rintro ((h | ⟨t, ht, rfl⟩) | ⟨q, hq, t, ht, rfl⟩)
      · exact Or.inl h
      · exact Or.inr ⟨p, Or.inl rfl, t, ht, rfl⟩
      · exact Or.inr ⟨q, Or.inr hq, t, ht, rfl⟩
    · rintro (h | ⟨q, (rfl | hq), t, ht, rfl⟩)
      · exact Or.inl (Or.inl h)
      · exact Or.inl (Or.inr ⟨t, ht, rfl⟩)
      · exact Or.inr ⟨q, hq, t, ht, rfl⟩

theorem graphEdgesFull_mem (e : GraphEdge) (adj : List (String × List String)) :
    e ∈ graphEdgesFull adj ↔ ∃ p ∈ adj, ∃ t ∈ p.2, e = ⟨p.1, t, 1⟩ := by
  rw [graphEdgesFull, graphEdgesFull_aux]
  simp

/-- C7 amended: every returned edge's endpoints appear among the ids of the
*untruncated* node list; equivalently the claim as stated holds whenever the
graph has at most 200 nodes, so that no node is truncated away. -/
theorem c7_ok (inp : ScanInput)
    (h : (graphNodesFull (scanCore inp)).length ≤ 200) :
    ∀ e ∈ (map_dependencies inp).dependency_graph.edges,
      (∃ nd ∈ (map_dependencies inp).dependency_graph.nodes, nd.id = e.source) ∧
      (∃ nd ∈ (map_dependencies inp).dependency_graph.nodes, nd.id = e.target) := by
  by_cases hp : inp.path_exists = false
  · have hed : (map_dependencies inp).dependency_graph.edges = [] := by
      simp [map_dependencies, hp, degenerateOutputs]
    rw [hed]
    simp
  · rw [Bool.not_eq_false] at hp
    by_cases hf : inp.files.length = 0
    · have hed : (map_dependencies inp).dependency_graph.edges = [] := by
        rw [map_dependencies]
        simp only [hp]
        rw [if_neg (by simp), if_pos (by simp [hf])]
        rfl
      rw [hed]
      simp
    · have hgr : (map_dependencies inp).dependency_graph =
          ⟨(graphNodesFull (scanCore inp)).take 200,
           (graphEdgesFull (scanCore inp).edges).take 500⟩ := by
        rw [map_dependencies]
        simp only [hp]
        rw [if_neg (by simp), if_neg (by simp [hf])]
      rw [hgr]
      intro e he
      have he2 : e ∈ graphEdgesFull (scanCore inp).edges := List.take_subset _ _ he
      obtain ⟨p, hp2, t, ht, rfl⟩ := (graphEdgesFull_mem e _).mp he2
      have hWF := scanCore_edgesWF inp p hp2
      have hnodes : (graphNodesFull (scanCore inp)).take 200 =
          graphNodesFull (scanCore inp) := List.take_of_length_le h
      rw [hnodes]
      constructor
      · exact ⟨⟨p.1, "internal", p.1⟩,
          List.mem_append_left _ (List.mem_map.mpr ⟨p.1, hWF.2.1, rfl⟩), rfl⟩
      · exact ⟨⟨t, "internal", t⟩,
          List.mem_append_left _ (List.mem_map.mpr ⟨t, hWF.2.2 t ht, rfl⟩), rfl⟩

/-- Witness for `c7_ok`: the minimal scan has 2 graph nodes and its
single edge `a.js → ./b` has both endpoints among the returned node ids. -/
theorem c7_witness :
    (graphNodesFull (scanCore smallInput)).length ≤ 200 ∧
    (⟨"a.js", "./b", 1⟩ : GraphEdge) ∈ (map_dependencies smallInput).dependency_graph.edges ∧
    (∃ nd ∈ (map_dependencies smallInput).dependency_graph.nodes, nd.id = "a.js") ∧
    (∃ nd ∈ (map_dependencies smallInput).dependency_graph.nodes, nd.id = "./b") :=
  ⟨by decide, by decide,
   (c7_ok smallInput (by decide) ⟨"a.js", "./b", 1⟩ (by decide)).1,
   (c7_ok smallInput (by decide) ⟨"a.js", "./b", 1⟩ (by decide)).2⟩
